import Mathlib

/-!
# EROM System — ledger and settlement core, shallow embedding

This file embeds the ledger/settlement core of the EROM backend (a Django
application) and proves properties of it.  Each definition is translated
from a named place in the source:

* `apps/agents/models.py`      — `Agent.total_debt`, `Agent.can_take_more_stock`,
  `Agent.get_debt_by_age`, `AgentLedger.remaining_debt`
* `apps/agents/serializers.py` — `StockTransferSerializer.validate`,
  `RecordPaymentSerializer`
* `apps/agents/views.py`       — `AgentViewSet.transfer_stock`,
  `AgentViewSet.record_payment`
* `apps/inventory/views.py`    — `ProductViewSet.adjust_stock`
* `apps/inventory/serializers.py` — `ProductCreateUpdateSerializer`
* `apps/sales/views.py`        — `TransactionViewSet.create_sale`,
  `ReconciliationViewSet` (`add_count`, `complete`, `approve`,
  `create_corrections`)
* `apps/sales/models.py`       — `ReconciliationItem.save`

Monetary values are `DecimalField(decimal_places=2)` columns; every
operation performed on them in the embedded code is addition, subtraction,
`min` and comparison, all exact on fixed-point decimals, so money is
represented as `Int` (an integer count of the smallest currency unit).
Quantities are Python ints, represented as `Int`.  Timestamps are
represented as `Int` seconds; `timezone.timedelta(days=n)` is `n * day`.
-/

namespace EROM

/-- One day of timestamp difference (`timezone.timedelta(days=1)`), in seconds. -/
def day : Int := 86400

/-- `Agent` row (`apps/agents/models.py`): credit limit (0 = unlimited) and
active flag; identity is a primary key. -/
structure Agent where
  id : Nat
  creditLimit : Int
  isActive : Bool
deriving Repr, DecidableEq

/-- `Product` row (`apps/inventory/models.py`): maintained stock counters and
active flag. -/
structure Product where
  id : Nat
  quantityInStock : Int
  quantityInField : Int
  reorderLevel : Int
  isActive : Bool
deriving Repr, DecidableEq

/-- `AgentLedger` row (`apps/agents/models.py`): one stock-to-agent transfer
tracked as debt, with the sanctioned settlement fields `paid_amount`,
`is_paid`, `payment_date`. -/
structure LedgerEntry where
  id : Nat
  agentId : Nat
  productId : Nat
  quantity : Int
  unitPrice : Int
  debtAmount : Int
  transferDate : Int
  isPaid : Bool
  paidAmount : Int
  paymentDate : Option Int
deriving Repr, DecidableEq

/-- `AgentLedger.remaining_debt` (`apps/agents/models.py` 145-148). -/
def remaining_debt (e : LedgerEntry) : Int :=
  e.debtAmount - e.paidAmount

/-- `AgentPayment` row (`apps/agents/models.py`): append-only payment record. -/
structure PaymentRec where
  id : Nat
  agentId : Nat
  amount : Int
  createdAt : Int
deriving Repr, DecidableEq

/-- `InventoryMovement.movement_type` choices (`apps/inventory/models.py`). -/
inductive MovementType where
  | purchase
  | sale
  | transferToAgent
  | returnFromAgent
  | adjustment
  | reversal
deriving Repr, DecidableEq

/-- `InventoryMovement` row (`apps/inventory/models.py`): append-only signed
quantity delta for a product. -/
structure InventoryMovement where
  id : Nat
  productId : Nat
  movementType : MovementType
  quantityDelta : Int
deriving Repr, DecidableEq

/-- `Transaction` row (`apps/sales/models.py`), fields used by `create_sale`. -/
structure TransactionRec where
  id : Nat
  subtotal : Int
  totalAmount : Int
  amountPaid : Int
  changeGiven : Int
deriving Repr, DecidableEq

/-- `TransactionItem` row (`apps/sales/models.py`). -/
structure TransactionItemRec where
  id : Nat
  transactionId : Nat
  productId : Nat
  quantity : Int
  unitPrice : Int
  discount : Int
deriving Repr, DecidableEq

/-- `Reconciliation.status` choices (`apps/sales/models.py`). -/
inductive ReconStatus where
  | inProgress
  | completed
  | approved
  | rejected
deriving Repr, DecidableEq

/-- `Reconciliation` row (`apps/sales/models.py`). -/
structure Reconciliation where
  id : Nat
  status : ReconStatus
deriving Repr, DecidableEq

/-- `ReconciliationItem` row (`apps/sales/models.py`): counts, variance,
discrepancy flag and the correction idempotency flags. -/
structure ReconItem where
  id : Nat
  reconId : Nat
  productId : Nat
  systemCount : Int
  physicalCount : Int
  variance : Int
  hasDiscrepancy : Bool
  discrepancyReason : String
  correctionApproved : Bool
  correctionCreated : Bool
deriving Repr, DecidableEq

/-- The authoritative data store: one table per model, plus a fresh-id
counter standing for the database's auto-increment primary keys. -/
structure State where
  agents : List Agent
  products : List Product
  ledger : List LedgerEntry
  payments : List PaymentRec
  movements : List InventoryMovement
  transactions : List TransactionRec
  transactionItems : List TransactionItemRec
  recons : List Reconciliation
  reconItems : List ReconItem
  nextId : Nat
deriving Repr, DecidableEq

/-! ## Derived values (the balance projector and aging calculator) -/

/-- Sum of `debt_amount` over a list of ledger entries
(`aggregate(total=Sum('debt_amount'))`). -/
def sumDebt (l : List LedgerEntry) : Int :=
  (l.map (·.debtAmount)).sum

/-- `Agent.total_debt` (`apps/agents/models.py` 55-62): the agent's ledger
entries with `is_paid=False`, aggregated by `Sum('debt_amount')`. -/
def total_debt (ledger : List LedgerEntry) (agentId : Nat) : Int :=
  sumDebt (ledger.filter (fun e => e.agentId == agentId && e.isPaid == false))

/-- `Agent.can_take_more_stock` (`apps/agents/models.py` 64-69). -/
def can_take_more_stock (ledger : List LedgerEntry) (a : Agent) : Bool :=
  if a.creditLimit == 0 then true
  else decide (total_debt ledger a.id < a.creditLimit)

/-- Result of `Agent.get_debt_by_age`: the five bucket keys
`'0-7'`, `'8-30'`, `'31-60'`, `'61-90'`, `'90+'`. -/
structure DebtByAge where
  b0_7 : Int
  b8_30 : Int
  b31_60 : Int
  b61_90 : Int
  b90plus : Int
deriving Repr, DecidableEq

/-- `Agent.get_debt_by_age` (`apps/agents/models.py` 71-103): each bucket
filters `is_paid=False` entries of the agent by `transfer_date` against
`now - timedelta(days=k)` with the `__gte`/`__lt` bounds of the source, and
aggregates `Sum('debt_amount')`. -/
def get_debt_by_age (ledger : List LedgerEntry) (agentId : Nat) (now : Int) :
    DebtByAge :=
  let mine : LedgerEntry → Bool := fun e => e.agentId == agentId && e.isPaid == false
  { b0_7 := sumDebt (ledger.filter (fun e =>
      mine e && decide (now - 7 * day ≤ e.transferDate)))
    b8_30 := sumDebt (ledger.filter (fun e =>
      mine e && decide (now - 30 * day ≤ e.transferDate)
             && decide (e.transferDate < now - 7 * day)))
    b31_60 := sumDebt (ledger.filter (fun e =>
      mine e && decide (now - 60 * day ≤ e.transferDate)
             && decide (e.transferDate < now - 30 * day)))
    b61_90 := sumDebt (ledger.filter (fun e =>
      mine e && decide (now - 90 * day ≤ e.transferDate)
             && decide (e.transferDate < now - 60 * day)))
    b90plus := sumDebt (ledger.filter (fun e =>
      mine e && decide (e.transferDate < now - 90 * day))) }

/-- Sum of `quantity_delta` over all movements of one product: the fold of
the movement ledger that the spec calls `projectStock`. -/
def movementSum (movs : List InventoryMovement) (pid : Nat) : Int :=
  ((movs.filter (fun m => m.productId == pid)).map (·.quantityDelta)).sum

/-! ## Settlement engine (`AgentViewSet.record_payment`, `apps/agents/views.py` 129-198) -/

/-- The queryset ordering `order_by('transfer_date')` (ascending, stable). -/
def sortByTransferDate (l : List LedgerEntry) : List LedgerEntry :=
  l.insertionSort (fun a b => a.transferDate ≤ b.transferDate)

/-- The allocation loop of `record_payment` (`apps/agents/views.py` 171-186):
iterate over the selected entries, break when `remaining_amount <= 0`,
apply `min(remaining_amount, entry.remaining_debt)` to each entry, mark it
paid with the payment's timestamp when `paid_amount >= debt_amount`.
Returns the selected entries after the loop, the final `remaining_amount`,
and `len(updated_entries)`. -/
def apply_entries (payTime : Int) :
    Int → List LedgerEntry → List LedgerEntry × Int × Nat
  | remaining, [] => ([], remaining, 0)
  | remaining, e :: rest =>
    if remaining ≤ 0 then (e :: rest, remaining, 0)
    else
      let toApply := min remaining (remaining_debt e)
      let newPaid := e.paidAmount + toApply
      let e' :=
        if e.debtAmount ≤ newPaid then
          { e with paidAmount := newPaid, isPaid := true, paymentDate := some payTime }
        else
          { e with paidAmount := newPaid }
      let r := apply_entries payTime (remaining - toApply) rest
      (e' :: r.1, r.2.1, r.2.2 + 1)

/-- Errors surfaced by `RecordPaymentSerializer` (`apps/agents/serializers.py`
134-146): `amount` has `min_value=0.01`, i.e. at least one cent. -/
inductive PaymentError where
  | invalidAmount
deriving Repr, DecidableEq

/-- The response data of `record_payment`. -/
structure PaymentOutcome where
  state : State
  payment : PaymentRec
  amountApplied : Int
  amountRemaining : Int
  updatedEntriesCount : Nat
deriving Repr, DecidableEq

/-- `AgentViewSet.record_payment` (`apps/agents/views.py` 129-198).
`targets = none` models a request without the optional `ledger_entries`
field (`data.get('ledger_entries', [])` then yields `[]`); Python's
truthiness test `if specific_entries:` sends an empty list down the
all-unpaid FIFO branch.  Selected entries are filtered exactly as the two
querysets in the source and ordered by `transfer_date`; after the loop the
updated rows are saved back by primary key. -/
def record_payment (s : State) (agentId : Nat) (amount : Int)
    (targets : Option (List Nat)) (now : Int) :
    Except PaymentError PaymentOutcome :=
  if amount < 1 then .error .invalidAmount
  else
    let specific := targets.getD []
    let payment : PaymentRec :=
      { id := s.nextId, agentId := agentId, amount := amount, createdAt := now }
    let selected :=
      if specific.isEmpty then
        sortByTransferDate (s.ledger.filter (fun e =>
          e.agentId == agentId && e.isPaid == false))
      else
        sortByTransferDate (s.ledger.filter (fun e =>
          specific.contains e.id && e.agentId == agentId && e.isPaid == false))
    let r := apply_entries payment.createdAt amount selected
    let newLedger := s.ledger.map (fun e =>
      (r.1.find? (fun u => u.id == e.id)).getD e)
    .ok
      { state := { s with
          ledger := newLedger
          payments := s.payments ++ [payment]
          nextId := s.nextId + 1 }
        payment := payment
        amountApplied := amount - r.2.1
        amountRemaining := r.2.1
        updatedEntriesCount := r.2.2 }

/-! ## Credit control and stock transfer
(`StockTransferSerializer.validate`, `apps/agents/serializers.py` 75-116;
`AgentViewSet.transfer_stock`, `apps/agents/views.py` 76-127) -/

/-- The credit-limit block of `StockTransferSerializer.validate`
(`apps/agents/serializers.py` 104-110): raises only when
`not agent.can_take_more_stock` and `credit_limit > 0` and
`total_debt + debt_amount > credit_limit`.  `true` means the check passes. -/
def transfer_credit_check (ledger : List LedgerEntry) (a : Agent)
    (debtAmount : Int) : Bool :=
  if !(can_take_more_stock ledger a) then
    if a.creditLimit > 0 && decide (total_debt ledger a.id + debtAmount > a.creditLimit)
    then false
    else true
  else true

/-- Error taxonomy of `StockTransferSerializer` field validation and
`validate` (`apps/agents/serializers.py` 75-116). -/
inductive TransferError where
  | invalidQuantity
  | invalidUnitPrice
  | agentNotFound
  | productNotFound
  | insufficientStock
  | creditLimitExceeded
deriving Repr, DecidableEq

/-- `StockTransferSerializer` validation (`apps/agents/serializers.py`
75-116): field validators `quantity >= 1`, `unit_price >= 0`, then
`validate`: agent exists and is active, product exists and is active,
sufficient stock, credit-limit check; on success yields the resolved agent,
product and `debt_amount = quantity * unit_price`. -/
def validate_transfer (s : State) (agentId productId : Nat) (quantity : Int)
    (unitPrice : Int) : Except TransferError (Agent × Product × Int) :=
  if quantity < 1 then .error .invalidQuantity
  else if unitPrice < 0 then .error .invalidUnitPrice
  else
    match s.agents.find? (fun a => a.id == agentId && a.isActive) with
    | none => .error .agentNotFound
    | some agent =>
      match s.products.find? (fun p => p.id == productId && p.isActive) with
      | none => .error .productNotFound
      | some product =>
        if product.quantityInStock < quantity then .error .insufficientStock
        else
          let debtAmount := quantity * unitPrice
          if !(transfer_credit_check s.ledger agent debtAmount) then
            .error .creditLimitExceeded
          else .ok (agent, product, debtAmount)

/-- First write of `transfer_stock` (`apps/agents/views.py` 91-101): append
the `TRANSFER_TO_AGENT` movement with `quantity_delta = -quantity`. -/
def transfer_write_movement (product : Product) (quantity : Int) :
    State → State := fun s =>
  { s with
    movements := s.movements ++
      [{ id := s.nextId, productId := product.id,
         movementType := .transferToAgent, quantityDelta := -quantity }]
    nextId := s.nextId + 1 }

/-- Second write of `transfer_stock` (`apps/agents/views.py` 103-113): append
the agent ledger entry (debt), with `paid_amount = 0`, `is_paid = False`,
`transfer_date` defaulting to now. -/
def transfer_write_ledger (agent : Agent) (product : Product) (quantity : Int)
    (unitPrice debtAmount : Int) (now : Int) : State → State := fun s =>
  { s with
    ledger := s.ledger ++
      [{ id := s.nextId, agentId := agent.id, productId := product.id,
         quantity := quantity, unitPrice := unitPrice, debtAmount := debtAmount,
         transferDate := now, isPaid := false, paidAmount := 0,
         paymentDate := none }]
    nextId := s.nextId + 1 }

/-- Third write of `transfer_stock` (`apps/agents/views.py` 115-118): update
the product counters `quantity_in_stock -= quantity`,
`quantity_in_field += quantity`. -/
def transfer_write_counters (productId : Nat) (quantity : Int) :
    State → State := fun s =>
  { s with
    products := s.products.map (fun p =>
      if p.id == productId then
        { p with quantityInStock := p.quantityInStock - quantity,
                 quantityInField := p.quantityInField + quantity }
      else p) }

/-- `AgentViewSet.transfer_stock` (`apps/agents/views.py` 76-127): validate,
then inside `transaction.atomic()` create the inventory movement, create the
agent ledger entry, and update the product counters. -/
def transfer_stock (s : State) (agentId productId : Nat) (quantity : Int)
    (unitPrice : Int) (now : Int) : Except TransferError State :=
  match validate_transfer s agentId productId quantity unitPrice with
  | .error err => .error err
  | .ok (agent, product, debtAmount) =>
    .ok (transfer_write_counters product.id quantity
          (transfer_write_ledger agent product quantity unitPrice debtAmount now
            (transfer_write_movement product quantity s)))

/-! ## Manual stock adjustment
(`ProductViewSet.adjust_stock`, `apps/inventory/views.py` 162-194;
`StockAdjustmentSerializer`, `apps/inventory/serializers.py` 126-136) -/

/-- Errors of `adjust_stock`: product not found (`get_object`), or
`quantity_delta == 0` (`StockAdjustmentSerializer.validate_quantity_delta`). -/
inductive AdjustError where
  | productNotFound
  | zeroDelta
deriving Repr, DecidableEq

/-- First write of `adjust_stock` (`apps/inventory/views.py` 172-181): append
the `ADJUSTMENT` movement. -/
def adjust_write_movement (productId : Nat) (delta : Int) :
    State → State := fun s =>
  { s with
    movements := s.movements ++
      [{ id := s.nextId, productId := productId,
         movementType := .adjustment, quantityDelta := delta }]
    nextId := s.nextId + 1 }

/-- Second write of `adjust_stock` (`apps/inventory/views.py` 183-185):
`product.quantity_in_stock += quantity_delta`. -/
def adjust_write_counter (productId : Nat) (delta : Int) :
    State → State := fun s =>
  { s with
    products := s.products.map (fun p =>
      if p.id == productId then
        { p with quantityInStock := p.quantityInStock + delta }
      else p) }

/-- `ProductViewSet.adjust_stock` (`apps/inventory/views.py` 162-194):
resolve the product, validate `delta != 0`, then append the movement and
update the counter.  Unlike `transfer_stock`, `create_sale` and
`create_corrections`, this action performs its two writes with no
`transaction.atomic()` block around them. -/
def adjust_stock (s : State) (productId : Nat) (delta : Int) :
    Except AdjustError State :=
  match s.products.find? (fun p => p.id == productId) with
  | none => .error .productNotFound
  | some product =>
    if delta == 0 then .error .zeroDelta
    else .ok (adjust_write_counter product.id delta
               (adjust_write_movement product.id delta s))

/-! ## Product creation and update
(`ProductCreateUpdateSerializer`, `apps/inventory/serializers.py` 77-105;
`ProductViewSet.perform_create`, `apps/inventory/views.py` 120-121) -/

/-- Creating a product (`ProductCreateUpdateSerializer` + `perform_create`):
the serializer's writable fields include `quantity_in_stock`, and saving
inserts the row directly — no `InventoryMovement` is recorded for the
initial stock. -/
def create_product (s : State) (quantityInStock reorderLevel : Int)
    (isActive : Bool) : State :=
  { s with
    products := s.products ++
      [{ id := s.nextId, quantityInStock := quantityInStock,
         quantityInField := 0, reorderLevel := reorderLevel,
         isActive := isActive }]
    nextId := s.nextId + 1 }

/-- Updating a product through `ProductCreateUpdateSerializer`: the writable
`quantity_in_stock` field overwrites the counter in place, again with no
`InventoryMovement` recorded. -/
def update_product_quantity (s : State) (productId : Nat)
    (newQuantity : Int) : State :=
  { s with
    products := s.products.map (fun p =>
      if p.id == productId then { p with quantityInStock := newQuantity }
      else p) }

/-! ## Point of sale
(`CreateSaleSerializer`, `apps/sales/serializers.py` 55-110;
`TransactionViewSet.create_sale`, `apps/sales/views.py` 37-96) -/

/-- One element of the `items` list of a sale request
(`SaleItemInput`, `apps/sales/serializers.py` 55-60). -/
structure SaleItemInput where
  productId : Nat
  quantity : Int
  unitPrice : Int
  discount : Int
deriving Repr, DecidableEq

/-- Errors of `CreateSaleSerializer`. -/
inductive SaleError where
  | emptyItems
  | invalidItemField
  | productNotFound
  | insufficientStock
  | paymentInsufficient
deriving Repr, DecidableEq

/-- The per-item half of `CreateSaleSerializer.validate`
(`apps/sales/serializers.py` 77-93) plus the `SaleItemInput` field
validators: each item needs `quantity >= 1`, `unit_price >= 0`,
`discount >= 0`, an active product, and sufficient stock.  Each item's
`Product.objects.get` is a separate fetch, so every item carries its own
snapshot of the product row as read at validation time. -/
def validate_sale_items (s : State) :
    List SaleItemInput → Except SaleError (List (Product × SaleItemInput))
  | [] => .ok []
  | it :: rest =>
    if it.quantity < 1 then .error .invalidItemField
    else if it.unitPrice < 0 then .error .invalidItemField
    else if it.discount < 0 then .error .invalidItemField
    else
      match s.products.find? (fun p => p.id == it.productId && p.isActive) with
      | none => .error .productNotFound
      | some product =>
        if product.quantityInStock < it.quantity then .error .insufficientStock
        else
          match validate_sale_items s rest with
          | .error err => .error err
          | .ok tail => .ok ((product, it) :: tail)

/-- `subtotal = sum((quantity * unit_price) - discount)`
(`apps/sales/serializers.py` 96-99). -/
def sale_subtotal (items : List SaleItemInput) : Int :=
  (items.map (fun it => it.quantity * it.unitPrice - it.discount)).sum

/-- The per-item writes of `create_sale` (`apps/sales/views.py` 61-90):
for each validated item, create the transaction item, create the `SALE`
movement with `quantity_delta = -quantity`, and save the product with
`quantity_in_stock -= quantity` computed on the item's own product
snapshot (the in-memory instance fetched during validation), written back
as an absolute value. -/
def sale_apply (txnId : Nat) :
    State → List (Product × SaleItemInput) → State
  | s, [] => s
  | s, (snap, it) :: rest =>
    let s1 : State :=
      { s with
        transactionItems := s.transactionItems ++
          [{ id := s.nextId, transactionId := txnId, productId := snap.id,
             quantity := it.quantity, unitPrice := it.unitPrice,
             discount := it.discount }]
        movements := s.movements ++
          [{ id := s.nextId + 1, productId := snap.id,
             movementType := .sale, quantityDelta := -it.quantity }]
        products := s.products.map (fun p =>
          if p.id == snap.id then
            { p with quantityInStock := snap.quantityInStock - it.quantity }
          else p)
        nextId := s.nextId + 2 }
    sale_apply txnId s1 rest

/-- `TransactionViewSet.create_sale` (`apps/sales/views.py` 37-96): validate
(`items` non-empty, per-item checks, `amount_paid >= subtotal`), then inside
`transaction.atomic()` create the transaction and process every item. -/
def create_sale (s : State) (items : List SaleItemInput)
    (amountPaid : Int) : Except SaleError State :=
  if items.isEmpty then .error .emptyItems
  else if amountPaid < 0 then .error .paymentInsufficient
  else
    match validate_sale_items s items with
    | .error err => .error err
    | .ok validated =>
      let subtotal := sale_subtotal items
      if amountPaid < subtotal then .error .paymentInsufficient
      else
        let txn : TransactionRec :=
          { id := s.nextId, subtotal := subtotal, totalAmount := subtotal,
            amountPaid := amountPaid, changeGiven := amountPaid - subtotal }
        let s1 : State :=
          { s with transactions := s.transactions ++ [txn], nextId := s.nextId + 1 }
        .ok (sale_apply txn.id s1 validated)

/-! ## Reconciliation workflow
(`ReconciliationViewSet`, `apps/sales/views.py` 128-292;
`ReconciliationItem.save`, `apps/sales/models.py` 232-236) -/

/-- `ReconciliationViewSet.create` (`apps/sales/views.py` 144-158): start a
new reconciliation in status `in_progress`. -/
def start_reconciliation (s : State) : State × Nat :=
  ({ s with
      recons := s.recons ++ [{ id := s.nextId, status := .inProgress }]
      nextId := s.nextId + 1 },
   s.nextId)

/-- `ReconciliationViewSet.add_count` (`apps/sales/views.py` 160-201):
guarded on status `in_progress`; `update_or_create` keyed on
`(reconciliation, product)` stores `system_count` from the product's
current `quantity_in_stock` and the submitted `physical_count`;
`ReconciliationItem.save` (`apps/sales/models.py` 232-236) recomputes
`variance = physical - system` and `has_discrepancy = variance != 0`.
The `Bool` is whether the request was accepted. -/
def add_count (s : State) (rid productId : Nat) (physicalCount : Int)
    (reason : String) : State × Bool :=
  match s.recons.find? (fun r => r.id == rid) with
  | none => (s, false)
  | some r =>
    if r.status != .inProgress then (s, false)
    else if physicalCount < 0 then (s, false)
    else
      match s.products.find? (fun p => p.id == productId && p.isActive) with
      | none => (s, false)
      | some product =>
        if (s.reconItems.filter (fun it =>
              it.reconId == rid && it.productId == product.id)).isEmpty then
          ({ s with
              reconItems := s.reconItems ++
                [{ id := s.nextId, reconId := rid, productId := product.id,
                   systemCount := product.quantityInStock,
                   physicalCount := physicalCount,
                   variance := physicalCount - product.quantityInStock,
                   hasDiscrepancy := physicalCount - product.quantityInStock != 0,
                   discrepancyReason := reason,
                   correctionApproved := false, correctionCreated := false }]
              nextId := s.nextId + 1 },
           true)
        else
          ({ s with
              reconItems := s.reconItems.map (fun it =>
                if it.reconId == rid && it.productId == product.id then
                  { it with
                    systemCount := product.quantityInStock,
                    physicalCount := physicalCount,
                    variance := physicalCount - product.quantityInStock,
                    hasDiscrepancy := physicalCount - product.quantityInStock != 0,
                    discrepancyReason := reason }
                else it) },
           true)

/-- `ReconciliationViewSet.complete` (`apps/sales/views.py` 203-221): only
from `in_progress`; sets status `completed`. -/
def complete_reconciliation (s : State) (rid : Nat) : State × Bool :=
  match s.recons.find? (fun r => r.id == rid) with
  | none => (s, false)
  | some r =>
    if r.status != .inProgress then (s, false)
    else
      ({ s with
          recons := s.recons.map (fun q =>
            if q.id == rid then { q with status := .completed } else q) },
       true)

/-- `ReconciliationViewSet.approve` (`apps/sales/views.py` 223-242): only
from `completed`; sets status `approved`. -/
def approve_reconciliation (s : State) (rid : Nat) : State × Bool :=
  match s.recons.find? (fun r => r.id == rid) with
  | none => (s, false)
  | some r =>
    if r.status != .completed then (s, false)
    else
      ({ s with
          recons := s.recons.map (fun q =>
            if q.id == rid then { q with status := .approved } else q) },
       true)

/-- The discrepancy queryset of `create_corrections`
(`apps/sales/views.py` 255): the reconciliation's items with
`has_discrepancy=True, correction_created=False`. -/
def discrepancy_items (s : State) (rid : Nat) : List ReconItem :=
  s.reconItems.filter (fun it =>
    it.reconId == rid && it.hasDiscrepancy && !it.correctionCreated)

/-- The correcting movement one loop iteration of `create_corrections`
appends for an item (`apps/sales/views.py` 261-272): an `ADJUSTMENT` with
`quantity_delta = item.variance`. -/
def correction_movement (movementId : Nat) (it : ReconItem) :
    InventoryMovement :=
  { id := movementId, productId := it.productId,
    movementType := .adjustment, quantityDelta := it.variance }

/-- The loop body of `create_corrections` (`apps/sales/views.py` 260-284):
for each discrepancy item, append the correcting movement, add the variance
to the product's `quantity_in_stock` (the item's product is fetched fresh
for each iteration), and flip `correction_created` and
`correction_approved` to `True`. -/
def corrections_apply : State → List ReconItem → State
  | s, [] => s
  | s, it :: rest =>
    let s1 : State :=
      { s with
        movements := s.movements ++ [correction_movement s.nextId it]
        products := s.products.map (fun p =>
          if p.id == it.productId then
            { p with quantityInStock := p.quantityInStock + it.variance }
          else p)
        reconItems := s.reconItems.map (fun j =>
          if j.id == it.id then
            { j with correctionCreated := true, correctionApproved := true }
          else j)
        nextId := s.nextId + 1 }
    corrections_apply s1 rest

/-- `ReconciliationViewSet.create_corrections` (`apps/sales/views.py`
244-292): only from `approved`; inside `transaction.atomic()` process every
item with `has_discrepancy=True, correction_created=False` (the queryset is
evaluated once, before the loop).  Returns the new state, whether the
request was accepted, and `corrections_created`. -/
def create_corrections (s : State) (rid : Nat) : State × Bool × Nat :=
  match s.recons.find? (fun r => r.id == rid) with
  | none => (s, false, 0)
  | some r =>
    if r.status != .approved then (s, false, 0)
    else
      let discrepancies := discrepancy_items s rid
      (corrections_apply s discrepancies, true, discrepancies.length)

/-! ## Transaction semantics for composite operations

`transfer_stock` (`apps/agents/views.py` 90), `create_sale`
(`apps/sales/views.py` 45) and `create_corrections` (`apps/sales/views.py`
257) perform their writes inside `with transaction.atomic():`;
`adjust_stock` (`apps/inventory/views.py` 162-194) performs its two writes
with no such block.  Django's commit semantics for a failure injected
before the k-th ORM write of a sequence: inside `transaction.atomic()` the
whole block rolls back, while in autocommit mode (no block) each
already-executed write stays committed. -/

/-- Run a sequence of writes under Django's commit semantics.
`failBefore = none` is the failure-free run; `failBefore = some k` injects
a database failure before the k-th write. -/
def run_writes (atomic : Bool) (writes : List (State → State))
    (failBefore : Option Nat) (s : State) : State :=
  match failBefore with
  | none => writes.foldl (fun st w => w st) s
  | some k => if atomic then s else (writes.take k).foldl (fun st w => w st) s

/-- The write sequence of `adjust_stock` (`apps/inventory/views.py`
172-185): movement insert, then counter update. -/
def adjust_stock_writes (productId : Nat) (delta : Int) :
    List (State → State) :=
  [adjust_write_movement productId delta, adjust_write_counter productId delta]

/-- `adjust_stock` has no `transaction.atomic()` block
(`apps/inventory/views.py` 162-194). -/
def adjust_stock_atomic : Bool := false

/-- The write sequence of `transfer_stock` (`apps/agents/views.py`
91-118): movement insert, ledger insert, counter update. -/
def transfer_stock_writes (agent : Agent) (product : Product)
    (quantity : Int) (unitPrice debtAmount : Int) (now : Int) :
    List (State → State) :=
  [transfer_write_movement product quantity,
   transfer_write_ledger agent product quantity unitPrice debtAmount now,
   transfer_write_counters product.id quantity]

/-- `transfer_stock` wraps its writes in `transaction.atomic()`
(`apps/agents/views.py` 90). -/
def transfer_stock_atomic : Bool := true

/-! ## Specification-side definitions

These definitions follow the specification's words, for comparison with
the definitions above that are translated from the source. -/

/-- Settlement loop as the specification words it (§4.4): for each selected
entry in order, while `remaining > 0`: `toApply = min(remaining,
entry.debt_amount - entry.paid_amount)`; increase `paid_amount` by
`toApply`; if the new `paid_amount >= debt_amount`, mark settled with the
payment's timestamp; decrement `remaining`; stop when `remaining == 0` or
entries exhausted. -/
def spec_apply_entries (payTime : Int) :
    Int → List LedgerEntry → List LedgerEntry × Int
  | remaining, [] => ([], remaining)
  | remaining, e :: rest =>
    if 0 < remaining then
      let toApply := min remaining (e.debtAmount - e.paidAmount)
      let newPaid := e.paidAmount + toApply
      let e' :=
        if e.debtAmount ≤ newPaid then
          { e with paidAmount := newPaid, isPaid := true, paymentDate := some payTime }
        else
          { e with paidAmount := newPaid }
      let r := spec_apply_entries payTime (remaining - toApply) rest
      (e' :: r.1, r.2)
    else (e :: rest, remaining)

/-- The specification's selection rule for a payment without a target list
(§4.4): all unpaid entries for the agent ordered by creation/transfer date
ascending (FIFO), fed to the settlement loop; yields the updated selected
entries and the unapplied remainder. -/
def spec_settle_fifo (ledger : List LedgerEntry) (agentId : Nat)
    (amount : Int) (payTime : Int) : List LedgerEntry × Int :=
  spec_apply_entries payTime amount
    (sortByTransferDate (ledger.filter (fun e =>
      e.agentId == agentId && e.isPaid == false)))

/-- The claim's reading of `total_debt`: the sum of
`debt_amount - paid_amount` over exactly the agent's entries with
`paid_amount < debt_amount`. -/
def claimed_total_debt (ledger : List LedgerEntry) (agentId : Nat) : Int :=
  ((ledger.filter (fun e =>
      e.agentId == agentId && decide (e.paidAmount < e.debtAmount))).map
    remaining_debt).sum

/-- The ledger-entry flag/threshold correspondence: `is_paid` holds exactly
when `paid_amount >= debt_amount`. -/
def flagInvariant (l : List LedgerEntry) : Prop :=
  ∀ e ∈ l, e.isPaid = decide (e.debtAmount ≤ e.paidAmount)

/-- The stock/ledger invariant claimed for every product: the maintained
counter equals the fold of the product's movement deltas. -/
def stockInv (s : State) : Prop :=
  ∀ p ∈ s.products, p.quantityInStock = movementSum s.movements p.id

/-- The correcting movements `create_corrections` appends for a run of the
loop starting at a given fresh id: one per discrepancy item, in order. -/
def correction_movements (startId : Nat) : List ReconItem → List InventoryMovement
  | [] => []
  | it :: rest => correction_movement startId it :: correction_movements (startId + 1) rest

/-- Flip the correction flags of every item whose id is in `ids`. -/
def flag_item (ids : List Nat) (j : ReconItem) : ReconItem :=
  if j.id ∈ ids then { j with correctionCreated := true, correctionApproved := true }
  else j

/-! ## Concrete fixtures used by witnesses and counterexamples -/

/-- An empty store. -/
def emptyState : State :=
  { agents := [], products := [], ledger := [], payments := [],
    movements := [], transactions := [], transactionItems := [],
    recons := [], reconItems := [], nextId := 1 }

/-- An unpaid ledger entry of agent 7: debt 100, transferred at time `t`. -/
def mkUnpaidEntry (id : Nat) (debt : Int) (t : Int) : LedgerEntry :=
  { id := id, agentId := 7, productId := 1, quantity := 1,
    unitPrice := debt, debtAmount := debt, transferDate := t,
    isPaid := false, paidAmount := 0, paymentDate := none }

/-- FIFO-law fixture: agent 7 with unpaid debts 100, 200, 300 created at
t1 < t2 < t3. -/
def fifoState : State :=
  { emptyState with
    agents := [{ id := 7, creditLimit := 0, isActive := true }]
    ledger := [mkUnpaidEntry 1 100 10, mkUnpaidEntry 2 200 20,
               mkUnpaidEntry 3 300 30]
    nextId := 4 }

/-- Credit-boundary fixture: agent 7 with `credit_limit = 500000`. -/
def creditAgent : Agent := { id := 7, creditLimit := 500000, isActive := true }

/-- Credit-boundary fixture: product 1 with ample stock. -/
def creditProduct : Product :=
  { id := 1, quantityInStock := 100, quantityInField := 0,
    reorderLevel := 5, isActive := true }

/-- Credit-boundary fixture: agent 7 with `credit_limit = 500000` and one
unpaid entry of 480000; product 1 has ample stock. -/
def creditState : State :=
  { emptyState with
    agents := [creditAgent]
    products := [creditProduct]
    ledger := [mkUnpaidEntry 1 480000 10]
    nextId := 4 }

/-- Partial-payment fixture: agent 7 with a single unpaid entry of 200. -/
def partialState : State :=
  { emptyState with
    agents := [{ id := 7, creditLimit := 0, isActive := true }]
    ledger := [mkUnpaidEntry 1 200 10]
    nextId := 2 }

/-- Aging-boundary fixture: one unpaid entry of agent 7 transferred exactly
30 days before `agingNow`. -/
def agingNow : Int := 100 * day

/-- The entry exactly 30.0 days old at `agingNow`. -/
def agingEntry : LedgerEntry := mkUnpaidEntry 1 100 (70 * day)

/-- Atomicity fixture: a single product with stock 10 and no movements. -/
def adjustState : State :=
  { emptyState with
    products := [{ id := 1, quantityInStock := 10, quantityInField := 0,
                   reorderLevel := 5, isActive := true }] }

/-- Reconciliation fixture: an approved reconciliation 5 over products 1
and 2 (stock 10 and 8), with physical counts 7 and 8: one discrepancy item
(variance -3) and one clean item. -/
def reconState : State :=
  { emptyState with
    products := [{ id := 1, quantityInStock := 10, quantityInField := 0,
                   reorderLevel := 5, isActive := true },
                 { id := 2, quantityInStock := 8, quantityInField := 0,
                   reorderLevel := 5, isActive := true }]
    recons := [{ id := 5, status := .approved }]
    reconItems := [
      { id := 11, reconId := 5, productId := 1, systemCount := 10,
        physicalCount := 7, variance := -3, hasDiscrepancy := true,
        discrepancyReason := "", correctionApproved := false,
        correctionCreated := false },
      { id := 12, reconId := 5, productId := 2, systemCount := 8,
        physicalCount := 8, variance := 0, hasDiscrepancy := false,
        discrepancyReason := "", correctionApproved := false,
        correctionCreated := false }]
    nextId := 20 }

/-- A completed (not in-progress) reconciliation, for the state-machine
rejection witnesses. -/
def completedReconState : State :=
  { emptyState with
    recons := [{ id := 5, status := .completed }]
    nextId := 20 }

/-- The outcome of the FIFO-law payment of 250 on `fifoState`: the 100
entry fully settled with the payment's timestamp, the 200 entry partially
paid to 150, the 300 entry untouched, remainder 0. -/
def fifoOutcome : PaymentOutcome :=
  { state := { fifoState with
      ledger := [{ mkUnpaidEntry 1 100 10 with
                     isPaid := true, paidAmount := 100, paymentDate := some 1000 },
                 { mkUnpaidEntry 2 200 20 with paidAmount := 150 },
                 mkUnpaidEntry 3 300 30]
      payments := [{ id := 4, agentId := 7, amount := 250, createdAt := 1000 }]
      nextId := 5 }
    payment := { id := 4, agentId := 7, amount := 250, createdAt := 1000 }
    amountApplied := 250
    amountRemaining := 0
    updatedEntriesCount := 2 }

/-- The outcome of a payment of 150 on `partialState`: the 200 entry is
partially paid (`paid_amount = 150`, still unpaid). -/
def partialOutcome : PaymentOutcome :=
  { state := { partialState with
      ledger := [{ mkUnpaidEntry 1 200 10 with paidAmount := 150 }]
      payments := [{ id := 2, agentId := 7, amount := 150, createdAt := 99 }]
      nextId := 3 }
    payment := { id := 2, agentId := 7, amount := 150, createdAt := 99 }
    amountApplied := 150
    amountRemaining := 0
    updatedEntriesCount := 1 }

/-- The outcome of a payment of 40 on `partialState` targeting only the
nonexistent entry id 9: nothing is allocated, the ledger is unchanged, and
the full 40 is reported as remainder. -/
def targetedOutcome : PaymentOutcome :=
  { state := { partialState with
      payments := [{ id := 2, agentId := 7, amount := 40, createdAt := 99 }]
      nextId := 3 }
    payment := { id := 2, agentId := 7, amount := 40, createdAt := 99 }
    amountApplied := 0
    amountRemaining := 40
    updatedEntriesCount := 0 }

/-- A store with one product of stock 0 and no movements (the stock/ledger
invariant holds vacuously). -/
def zeroStockState : State :=
  { emptyState with
    products := [{ id := 1, quantityInStock := 0, quantityInField := 0,
                   reorderLevel := 5, isActive := true }] }

/-- `zeroStockState` after `adjust_stock` of +5: the movement and the
counter update both applied. -/
def adjustedZeroState : State :=
  { emptyState with
    products := [{ id := 1, quantityInStock := 5, quantityInField := 0,
                   reorderLevel := 5, isActive := true }]
    movements := [{ id := 1, productId := 1, movementType := .adjustment,
                    quantityDelta := 5 }]
    nextId := 2 }

/-! ## Helper lemmas -/

theorem sumDebt_cons (e : LedgerEntry) (l : List LedgerEntry) :
    sumDebt (e :: l) = e.debtAmount + sumDebt l := by
  simp [sumDebt]

theorem movementSum_append (ms : List InventoryMovement)
    (m : InventoryMovement) (pid : Nat) :
    movementSum (ms ++ [m]) pid =
      movementSum ms pid + (if m.productId == pid then m.quantityDelta else 0) := by
  by_cases h : m.productId == pid <;>
    simp [movementSum, List.filter_append, h]

/-- The five age windows of the aging calculator partition the unpaid
entries: their sums add up to the whole. -/
theorem bucket_partition (now : Int) (l : List LedgerEntry) :
    sumDebt (l.filter (fun e => decide (now - e.transferDate ≤ 7 * day))) +
    sumDebt (l.filter (fun e => decide (7 * day < now - e.transferDate) &&
                                decide (now - e.transferDate ≤ 30 * day))) +
    sumDebt (l.filter (fun e => decide (30 * day < now - e.transferDate) &&
                                decide (now - e.transferDate ≤ 60 * day))) +
    sumDebt (l.filter (fun e => decide (60 * day < now - e.transferDate) &&
                                decide (now - e.transferDate ≤ 90 * day))) +
    sumDebt (l.filter (fun e => decide (90 * day < now - e.transferDate))) =
    sumDebt l := by
  have hd : day = 86400 := rfl
  induction l with
  | nil => simp [sumDebt]
  | cons e rest ih =>
    simp only [List.filter_cons]
    by_cases h1 : now - e.transferDate ≤ 7 * day
    · rw [if_pos (show (decide (now - e.transferDate ≤ 7 * day)) = true by
          simp only [decide_eq_true_eq]; omega),
        if_neg (show ¬((decide (7 * day < now - e.transferDate) &&
            decide (now - e.transferDate ≤ 30 * day)) = true) by
          simp only [Bool.and_eq_true, decide_eq_true_eq]; omega),
        if_neg (show ¬((decide (30 * day < now - e.transferDate) &&
            decide (now - e.transferDate ≤ 60 * day)) = true) by
          simp only [Bool.and_eq_true, decide_eq_true_eq]; omega),
        if_neg (show ¬((decide (60 * day < now - e.transferDate) &&
            decide (now - e.transferDate ≤ 90 * day)) = true) by
          simp only [Bool.and_eq_true, decide_eq_true_eq]; omega),
        if_neg (show ¬((decide (90 * day < now - e.transferDate)) = true) by
          simp only [decide_eq_true_eq]; omega),
        sumDebt_cons, sumDebt_cons]
      linarith
    · by_cases h2 : now - e.transferDate ≤ 30 * day
      · rw [if_neg (show ¬((decide (now - e.transferDate ≤ 7 * day)) = true) by
            simp only [decide_eq_true_eq]; omega),
          if_pos (show ((decide (7 * day < now - e.transferDate) &&
              decide (now - e.transferDate ≤ 30 * day)) = true) by
            simp only [Bool.and_eq_true, decide_eq_true_eq]
            exact ⟨by omega, by omega⟩),
          if_neg (show ¬((decide (30 * day < now - e.transferDate) &&
              decide (now - e.transferDate ≤ 60 * day)) = true) by
            simp only [Bool.and_eq_true, decide_eq_true_eq]; omega),
          if_neg (show ¬((decide (60 * day < now - e.transferDate) &&
              decide (now - e.transferDate ≤ 90 * day)) = true) by
            simp only [Bool.and_eq_true, decide_eq_true_eq]; omega),
          if_neg (show ¬((decide (90 * day < now - e.transferDate)) = true) by
            simp only [decide_eq_true_eq]; omega),
          sumDebt_cons, sumDebt_cons]
        linarith
      · by_cases h3 : now - e.transferDate ≤ 60 * day
        · rw [if_neg (show ¬((decide (now - e.transferDate ≤ 7 * day)) = true) by
              simp only [decide_eq_true_eq]; omega),
            if_neg (show ¬((decide (7 * day < now - e.transferDate) &&
                decide (now - e.transferDate ≤ 30 * day)) = true) by
              simp only [Bool.and_eq_true, decide_eq_true_eq]; omega),
            if_pos (show ((decide (30 * day < now - e.transferDate) &&
                decide (now - e.transferDate ≤ 60 * day)) = true) by
              simp only [Bool.and_eq_true, decide_eq_true_eq]
              exact ⟨by omega, by omega⟩),
            if_neg (show ¬((decide (60 * day < now - e.transferDate) &&
                decide (now - e.transferDate ≤ 90 * day)) = true) by
              simp only [Bool.and_eq_true, decide_eq_true_eq]; omega),
            if_neg (show ¬((decide (90 * day < now - e.transferDate)) = true) by
              simp only [decide_eq_true_eq]; omega),
            sumDebt_cons, sumDebt_cons]
          linarith
        · by_cases h4 : now - e.transferDate ≤ 90 * day
          · rw [if_neg (show ¬((decide (now - e.transferDate ≤ 7 * day)) = true) by
                simp only [decide_eq_true_eq]; omega),
              if_neg (show ¬((decide (7 * day < now - e.transferDate) &&
                  decide (now - e.transferDate ≤ 30 * day)) = true) by
                simp only [Bool.and_eq_true, decide_eq_true_eq]; omega),
              if_neg (show ¬((decide (30 * day < now - e.transferDate) &&
                  decide (now - e.transferDate ≤ 60 * day)) = true) by
                simp only [Bool.and_eq_true, decide_eq_true_eq]; omega),
              if_pos (show ((decide (60 * day < now - e.transferDate) &&
                  decide (now - e.transferDate ≤ 90 * day)) = true) by
                simp only [Bool.and_eq_true, decide_eq_true_eq]
                exact ⟨by omega, by omega⟩),
              if_neg (show ¬((decide (90 * day < now - e.transferDate)) = true) by
                simp only [decide_eq_true_eq]; omega),
              sumDebt_cons, sumDebt_cons]
            linarith
          · rw [if_neg (show ¬((decide (now - e.transferDate ≤ 7 * day)) = true) by
                simp only [decide_eq_true_eq]; omega),
              if_neg (show ¬((decide (7 * day < now - e.transferDate) &&
                  decide (now - e.transferDate ≤ 30 * day)) = true) by
                simp only [Bool.and_eq_true, decide_eq_true_eq]; omega),
              if_neg (show ¬((decide (30 * day < now - e.transferDate) &&
                  decide (now - e.transferDate ≤ 60 * day)) = true) by
                simp only [Bool.and_eq_true, decide_eq_true_eq]; omega),
              if_neg (show ¬((decide (60 * day < now - e.transferDate) &&
                  decide (now - e.transferDate ≤ 90 * day)) = true) by
                simp only [Bool.and_eq_true, decide_eq_true_eq]; omega),
              if_pos (show ((decide (90 * day < now - e.transferDate)) = true) by
                simp only [decide_eq_true_eq]; omega),
              sumDebt_cons, sumDebt_cons]
            linarith

theorem bool_eq_of_iff {a b : Bool} (h : (a = true) ↔ (b = true)) : a = b := by
  cases a <;> cases b <;> simp_all

/-- Pointwise form of a double-bounded aging bucket condition: the source's
`transfer_date`-interval filter equals the age-interval filter. -/
theorem bucket_cond_eq (agentId : Nat) (now lo hi : Int) (e : LedgerEntry) :
    (((e.agentId == agentId && e.isPaid == false) &&
       decide (now - hi ≤ e.transferDate)) &&
      decide (e.transferDate < now - lo)) =
    ((decide (lo < now - e.transferDate) && decide (now - e.transferDate ≤ hi)) &&
      (e.agentId == agentId && e.isPaid == false)) := by
  refine bool_eq_of_iff ?_
  simp only [Bool.and_eq_true, decide_eq_true_eq]
  constructor
  · rintro ⟨⟨hm, h1⟩, h2⟩
    exact ⟨⟨by omega, by omega⟩, hm⟩
  · rintro ⟨⟨h1, h2⟩, hm⟩
    exact ⟨⟨hm, by omega⟩, by omega⟩

/-- Pointwise form of the youngest aging bucket condition. -/
theorem bucket_cond_eq_young (agentId : Nat) (now hi : Int) (e : LedgerEntry) :
    ((e.agentId == agentId && e.isPaid == false) &&
      decide (now - hi ≤ e.transferDate)) =
    (decide (now - e.transferDate ≤ hi) &&
      (e.agentId == agentId && e.isPaid == false)) := by
  refine bool_eq_of_iff ?_
  simp only [Bool.and_eq_true, decide_eq_true_eq]
  constructor
  · rintro ⟨hm, h1⟩
    exact ⟨by omega, hm⟩
  · rintro ⟨h1, hm⟩
    exact ⟨hm, by omega⟩

/-- Pointwise form of the oldest aging bucket condition. -/
theorem bucket_cond_eq_old (agentId : Nat) (now lo : Int) (e : LedgerEntry) :
    ((e.agentId == agentId && e.isPaid == false) &&
      decide (e.transferDate < now - lo)) =
    (decide (lo < now - e.transferDate) &&
      (e.agentId == agentId && e.isPaid == false)) := by
  refine bool_eq_of_iff ?_
  simp only [Bool.and_eq_true, decide_eq_true_eq]
  constructor
  · rintro ⟨hm, h1⟩
    exact ⟨by omega, hm⟩
  · rintro ⟨h1, hm⟩
    exact ⟨hm, by omega⟩

/-! ## Claim C2 — credit control -/

/-- C2 counterexample: the claim says a transfer creating 20001 of new debt
for an agent with `credit_limit = 500000` and current debt 480000 fails
with a credit-limit error; the code accepts it
(`StockTransferSerializer.validate` only rejects when the agent is already
at or over the limit, because `can_take_more_stock` ignores the
incremental amount). -/
theorem claim2_credit_check_counterexample :
    validate_transfer creditState 7 1 1 20001 =
      .ok (creditAgent, creditProduct, 20001) ∧
    total_debt creditState.ledger 7 + 20001 > creditAgent.creditLimit := by
  constructor
  · rfl
  · decide

/-- C2 amended: the transfer credit check passes iff `credit_limit ≤ 0`
(0 means unlimited), or the agent's current `total_debt` is strictly below
`credit_limit`, or `total_debt + debt_amount ≤ credit_limit`; in
particular the incremental amount is ignored whenever the current debt is
below the limit. -/
theorem claim2_credit_check_rule (ledger : List LedgerEntry) (a : Agent)
    (debtAmount : Int) :
    transfer_credit_check ledger a debtAmount = true ↔
      (a.creditLimit ≤ 0 ∨ total_debt ledger a.id < a.creditLimit ∨
       total_debt ledger a.id + debtAmount ≤ a.creditLimit) := by
  unfold transfer_credit_check can_take_more_stock
  by_cases h0 : a.creditLimit = 0
  · simp [h0]
  · by_cases h1 : total_debt ledger a.id < a.creditLimit
    · simp [h0, h1]
    · by_cases hp : a.creditLimit > 0
      · by_cases h2 : total_debt ledger a.id + debtAmount > a.creditLimit
        · simp [h0, h1, hp, h2]
        · simp [h0, h1, hp, h2]
          exact Or.inr (by linarith)
      · simp [h0, h1, hp]
        exact Or.inl (by linarith)

/-! ## Claim C8 — aging calculator -/

/-- C8 counterexample: the claim says an entry exactly 30.0 days old falls
in the `[30,60)` bucket; the code puts it in the `'8-30'` bucket (the
`transfer_date__gte=now - timedelta(days=30)` filter is inclusive), leaving
the `'31-60'` bucket empty. -/
theorem claim8_aging_boundary_counterexample :
    agingNow - agingEntry.transferDate = 30 * day ∧
    agingEntry.isPaid = false ∧
    (get_debt_by_age [agingEntry] 7 agingNow).b31_60 = 0 ∧
    (get_debt_by_age [agingEntry] 7 agingNow).b8_30 = agingEntry.debtAmount ∧
    agingEntry.debtAmount ≠ 0 := by
  refine ⟨by decide, by decide, by decide, by decide, by decide⟩

/-- C8 amended: the buckets of `get_debt_by_age` are the age windows
`[0,7]`, `(7,30]`, `(30,60]`, `(60,90]`, `(90,∞)` days (entries exactly at
a boundary fall in the *younger* bucket), each summing `debt_amount` over
the agent's `is_paid = false` entries, and together they partition the
agent's `total_debt`. -/
theorem claim8_aging_buckets (ledger : List LedgerEntry) (agentId : Nat)
    (now : Int) :
    (get_debt_by_age ledger agentId now).b0_7 =
      sumDebt ((ledger.filter (fun e => e.agentId == agentId && e.isPaid == false)).filter
        (fun e => decide (now - e.transferDate ≤ 7 * day))) ∧
    (get_debt_by_age ledger agentId now).b8_30 =
      sumDebt ((ledger.filter (fun e => e.agentId == agentId && e.isPaid == false)).filter
        (fun e => decide (7 * day < now - e.transferDate) &&
                  decide (now - e.transferDate ≤ 30 * day))) ∧
    (get_debt_by_age ledger agentId now).b31_60 =
      sumDebt ((ledger.filter (fun e => e.agentId == agentId && e.isPaid == false)).filter
        (fun e => decide (30 * day < now - e.transferDate) &&
                  decide (now - e.transferDate ≤ 60 * day))) ∧
    (get_debt_by_age ledger agentId now).b61_90 =
      sumDebt ((ledger.filter (fun e => e.agentId == agentId && e.isPaid == false)).filter
        (fun e => decide (60 * day < now - e.transferDate) &&
                  decide (now - e.transferDate ≤ 90 * day))) ∧
    (get_debt_by_age ledger agentId now).b90plus =
      sumDebt ((ledger.filter (fun e => e.agentId == agentId && e.isPaid == false)).filter
        (fun e => decide (90 * day < now - e.transferDate))) ∧
    (get_debt_by_age ledger agentId now).b0_7 +
      (get_debt_by_age ledger agentId now).b8_30 +
      (get_debt_by_age ledger agentId now).b31_60 +
      (get_debt_by_age ledger agentId now).b61_90 +
      (get_debt_by_age ledger agentId now).b90plus =
      total_debt ledger agentId := by
  have e1 : (get_debt_by_age ledger agentId now).b0_7 =
      sumDebt ((ledger.filter (fun e => e.agentId == agentId && e.isPaid == false)).filter
        (fun e => decide (now - e.transferDate ≤ 7 * day))) := by
    simp only [get_debt_by_age]
    rw [List.filter_filter]
    exact congrArg sumDebt (List.filter_congr (fun e _ =>
      bucket_cond_eq_young agentId now (7 * day) e))
  have e2 : (get_debt_by_age ledger agentId now).b8_30 =
      sumDebt ((ledger.filter (fun e => e.agentId == agentId && e.isPaid == false)).filter
        (fun e => decide (7 * day < now - e.transferDate) &&
                  decide (now - e.transferDate ≤ 30 * day))) := by
    simp only [get_debt_by_age]
    rw [List.filter_filter]
    exact congrArg sumDebt (List.filter_congr (fun e _ =>
      bucket_cond_eq agentId now (7 * day) (30 * day) e))
  have e3 : (get_debt_by_age ledger agentId now).b31_60 =
      sumDebt ((ledger.filter (fun e => e.agentId == agentId && e.isPaid == false)).filter
        (fun e => decide (30 * day < now - e.transferDate) &&
                  decide (now - e.transferDate ≤ 60 * day))) := by
    simp only [get_debt_by_age]
    rw [List.filter_filter]
    exact congrArg sumDebt (List.filter_congr (fun e _ =>
      bucket_cond_eq agentId now (30 * day) (60 * day) e))
  have e4 : (get_debt_by_age ledger agentId now).b61_90 =
      sumDebt ((ledger.filter (fun e => e.agentId == agentId && e.isPaid == false)).filter
        (fun e => decide (60 * day < now - e.transferDate) &&
                  decide (now - e.transferDate ≤ 90 * day))) := by
    simp only [get_debt_by_age]
    rw [List.filter_filter]
    exact congrArg sumDebt (List.filter_congr (fun e _ =>
      bucket_cond_eq agentId now (60 * day) (90 * day) e))
  have e5 : (get_debt_by_age ledger agentId now).b90plus =
      sumDebt ((ledger.filter (fun e => e.agentId == agentId && e.isPaid == false)).filter
        (fun e => decide (90 * day < now - e.transferDate))) := by
    simp only [get_debt_by_age]
    rw [List.filter_filter]
    exact congrArg sumDebt (List.filter_congr (fun e _ =>
      bucket_cond_eq_old agentId now (90 * day) e))
  refine ⟨e1, e2, e3, e4, e5, ?_⟩
  rw [e1, e2, e3, e4, e5]
  exact bucket_partition now _

/-! ## Settlement-loop lemmas -/

/-- The allocation loop never drives `remaining_amount` negative: each
`payment_to_apply` is at most the remaining amount. -/
theorem apply_entries_nonneg (t : Int) :
    ∀ (r : Int) (l : List LedgerEntry), 0 ≤ r →
      0 ≤ (apply_entries t r l).2.1 := by
  intro r l
  induction l generalizing r with
  | nil => intro h; simpa [apply_entries] using h
  | cons e rest ih =>
    intro h
    by_cases hr : r ≤ 0
    · simpa [apply_entries, hr] using h
    · simpa [apply_entries, hr] using
        ih (r - min r (remaining_debt e)) (sub_nonneg.mpr (min_le_left _ _))

/-- The allocation loop preserves the primary keys of the selected rows. -/
theorem apply_entries_ids (t : Int) :
    ∀ (r : Int) (l : List LedgerEntry),
      (apply_entries t r l).1.map (·.id) = l.map (·.id) := by
  intro r l
  induction l generalizing r with
  | nil => simp [apply_entries]
  | cons e rest ih =>
    by_cases hr : r ≤ 0
    · simp [apply_entries, hr]
    · by_cases hp : e.debtAmount ≤ e.paidAmount + min r (remaining_debt e) <;>
        simp [apply_entries, hr, hp, ih]

/-- The allocation loop agrees with the specification's `while remaining >
0` loop whenever it starts from a nonnegative amount (the code breaks on
`remaining <= 0`, the spec stops on `remaining == 0`). -/
theorem apply_entries_eq_spec (t : Int) :
    ∀ (r : Int) (l : List LedgerEntry), 0 ≤ r →
      (apply_entries t r l).1 = (spec_apply_entries t r l).1 ∧
      (apply_entries t r l).2.1 = (spec_apply_entries t r l).2 := by
  intro r l
  induction l generalizing r with
  | nil => intro _; simp [apply_entries, spec_apply_entries]
  | cons e rest ih =>
    intro h
    by_cases hr : r ≤ 0
    · have hz : ¬(0 < r) := by omega
      simp [apply_entries, spec_apply_entries, hr, hz]
    · have hz : 0 < r := by omega
      have ih' := ih (r - min r (remaining_debt e))
        (sub_nonneg.mpr (min_le_left _ _))
      simp only [remaining_debt] at ih'
      by_cases hp : e.debtAmount ≤ e.paidAmount + min r (remaining_debt e) <;>
        simp [apply_entries, spec_apply_entries, hr, hz, hp, remaining_debt,
          ih'.1, ih'.2]

/-- The allocation loop preserves the `is_paid`/`paid_amount`
correspondence: it marks a row paid exactly when the new `paid_amount`
reaches `debt_amount`. -/
theorem apply_entries_flag (t : Int) :
    ∀ (r : Int) (l : List LedgerEntry),
      (∀ e ∈ l, e.isPaid = decide (e.debtAmount ≤ e.paidAmount)) →
      ∀ u ∈ (apply_entries t r l).1,
        u.isPaid = decide (u.debtAmount ≤ u.paidAmount) := by
  intro r l
  induction l generalizing r with
  | nil => intro _ u hu; simp [apply_entries] at hu
  | cons e rest ih =>
    intro hinv u hu
    by_cases hr : r ≤ 0
    · simp only [apply_entries, if_pos hr] at hu
      exact hinv u hu
    · simp only [apply_entries, if_neg hr] at hu
      by_cases hp : e.debtAmount ≤ e.paidAmount + min r (remaining_debt e)
      · rw [if_pos hp] at hu
        rcases List.mem_cons.mp hu with hu | hu
        · subst hu
          simp [hp]
        · exact ih _ (fun x hx => hinv x (List.mem_cons_of_mem e hx)) u hu
      · rw [if_neg hp] at hu
        rcases List.mem_cons.mp hu with hu | hu
        · subst hu
          have he := hinv e (List.mem_cons_self e rest)
          have hfalse : e.isPaid = false := by
            by_contra hb
            have ht : e.isPaid = true := by
              cases hh : e.isPaid
              · exact absurd hh hb
              · rfl
            rw [ht] at he
            have hle : e.debtAmount ≤ e.paidAmount := of_decide_eq_true he.symm
            have hrd : remaining_debt e ≤ 0 := by
              unfold remaining_debt
              omega
            have hminr : min r (remaining_debt e) = remaining_debt e :=
              min_eq_right (by omega)
            rw [hminr] at hp
            unfold remaining_debt at hp
            omega
          simp [hfalse, hp]
        · exact ih _ (fun x hx => hinv x (List.mem_cons_of_mem e hx)) u hu

/-! ## Claim C7 — payment conservation -/

/-- C7: for every successful payment, the reported `amount_applied` plus
the reported `amount_remaining` equals the stated amount exactly, the
remainder is nonnegative and surfaced in the response, and the `Payment`
row is appended for the full stated amount. -/
theorem claim7_payment_conservation (s : State) (agentId : Nat)
    (amount : Int) (targets : Option (List Nat)) (now : Int)
    (out : PaymentOutcome)
    (h : record_payment s agentId amount targets now = .ok out) :
    out.amountApplied + out.amountRemaining = amount ∧
    0 ≤ out.amountRemaining ∧
    out.payment.amount = amount ∧
    out.state.payments = s.payments ++ [out.payment] := by
  by_cases ha : amount < 1
  · simp [record_payment, ha] at h
  · simp only [record_payment, if_neg ha] at h
    rw [Except.ok.injEq] at h
    subst h
    refine ⟨by ring, ?_, rfl, rfl⟩
    exact apply_entries_nonneg now amount _ (by omega)

/-- C7 witness: the FIFO-law payment instantiates the conservation law. -/
theorem claim7_payment_conservation_witness :
    fifoOutcome.amountApplied + fifoOutcome.amountRemaining = 250 ∧
    0 ≤ fifoOutcome.amountRemaining ∧
    fifoOutcome.payment.amount = 250 ∧
    fifoOutcome.state.payments = fifoState.payments ++ [fifoOutcome.payment] :=
  claim7_payment_conservation fifoState 7 250 none 1000 fifoOutcome (by rfl)

/-! ## Claim C1 — FIFO settlement -/

/-- C1: a payment recorded without a target list allocates over all of the
agent's unpaid entries in ascending `transfer_date` order exactly as the
specification's settlement loop describes (`toApply = min(remaining,
debt - paid)`, mark paid with the payment's timestamp when the new
`paid_amount` reaches `debt_amount`, stop on remainder 0 or exhaustion);
and on unpaid debts 100, 200, 300 a payment of 250 settles the first,
leaves the second at `paid_amount = 150`, leaves the third untouched, with
remainder 0. -/
theorem claim1_fifo_settlement :
    (∀ (s : State) (agentId : Nat) (amount now : Int) (out : PaymentOutcome),
      record_payment s agentId amount none now = .ok out →
      out.state.ledger = s.ledger.map (fun e =>
        (((spec_settle_fifo s.ledger agentId amount now).1.find?
            (fun u => u.id == e.id)).getD e)) ∧
      out.amountRemaining = (spec_settle_fifo s.ledger agentId amount now).2) ∧
    record_payment fifoState 7 250 none 1000 = .ok fifoOutcome := by
  constructor
  · intro s agentId amount now out h
    by_cases ha : amount < 1
    · simp [record_payment, ha] at h
    · simp only [record_payment, if_neg ha] at h
      rw [Except.ok.injEq] at h
      subst h
      have hs := apply_entries_eq_spec now amount
        (sortByTransferDate (s.ledger.filter (fun e =>
          e.agentId == agentId && e.isPaid == false))) (by omega)
      constructor
      · simp only [spec_settle_fifo, Option.getD_none, List.isEmpty_nil,
          if_pos, hs.1]
      · simp only [spec_settle_fifo, Option.getD_none, List.isEmpty_nil,
          if_pos, hs.2]
  · rfl

/-- C1 witness: the general FIFO characterization applied at the
FIFO-law fixture. -/
theorem claim1_fifo_settlement_witness :
    fifoOutcome.state.ledger = fifoState.ledger.map (fun e =>
      (((spec_settle_fifo fifoState.ledger 7 250 1000).1.find?
          (fun u => u.id == e.id)).getD e)) ∧
    fifoOutcome.amountRemaining = (spec_settle_fifo fifoState.ledger 7 250 1000).2 :=
  claim1_fifo_settlement.1 fifoState 7 250 1000 fifoOutcome
    claim1_fifo_settlement.2

/-! ## Claim C10 — payment targeting -/

/-- C10: an explicitly provided empty target list behaves identically to no
target list (Python's truthiness sends `[]` down the FIFO branch); and with
a nonempty target list, any ledger row that is already paid, belongs to a
different agent, or is not among the targeted ids is left in the store
unchanged, while the conservation `applied + remainder = amount` still
holds, so unallocated money surfaces in the remainder. -/
theorem claim10_payment_targeting :
    (∀ (s : State) (agentId : Nat) (amount now : Int),
      record_payment s agentId amount (some []) now =
        record_payment s agentId amount none now) ∧
    (∀ (s : State) (agentId : Nat) (amount : Int) (tgts : List Nat)
       (now : Int) (out : PaymentOutcome) (e : LedgerEntry),
      tgts ≠ [] →
      record_payment s agentId amount (some tgts) now = .ok out →
      (s.ledger.map (·.id)).Nodup →
      e ∈ s.ledger →
      (e.isPaid = true ∨ e.agentId ≠ agentId ∨ e.id ∉ tgts) →
      e ∈ out.state.ledger) ∧
    (∀ (s : State) (agentId : Nat) (amount : Int) (tgts : List Nat)
       (now : Int) (out : PaymentOutcome),
      record_payment s agentId amount (some tgts) now = .ok out →
      out.amountApplied + out.amountRemaining = amount) := by
  refine ⟨fun s agentId amount now => rfl, ?_, ?_⟩
  · intro s agentId amount tgts now out e htgts h hnodup he hdisq
    by_cases ha : amount < 1
    · simp [record_payment, ha] at h
    · have hne : tgts.isEmpty = false := by
        cases tgts with
        | nil => exact absurd rfl htgts
        | cons a as => rfl
      simp only [record_payment, if_neg ha, Option.getD_some, hne,
        Bool.false_eq_true, if_false] at h
      rw [Except.ok.injEq] at h
      subst h
      refine List.mem_map.mpr ⟨e, he, ?_⟩
      cases hf : ((apply_entries now amount
          (sortByTransferDate (s.ledger.filter (fun x =>
            tgts.contains x.id && x.agentId == agentId &&
            x.isPaid == false)))).1.find? (fun u => u.id == e.id)) with
      | none => simp [hf]
      | some u =>
        exfalso
        have hu_mem := List.mem_of_find?_eq_some hf
        have hpu := List.find?_some hf
        have hid : u.id = e.id := by simpa using hpu
        have hmap : u.id ∈ ((apply_entries now amount
            (sortByTransferDate (s.ledger.filter (fun x =>
              tgts.contains x.id && x.agentId == agentId &&
              x.isPaid == false)))).1.map (·.id)) :=
          List.mem_map_of_mem _ hu_mem
        rw [apply_entries_ids] at hmap
        obtain ⟨x, hx_mem, hx_id⟩ := List.mem_map.mp hmap
        have hx_filt : x ∈ s.ledger.filter (fun x =>
            tgts.contains x.id && x.agentId == agentId &&
            x.isPaid == false) :=
          ((List.perm_insertionSort _ _).mem_iff).mp hx_mem
        have hx_led : x ∈ s.ledger := List.mem_of_mem_filter hx_filt
        have hx_pred := List.of_mem_filter hx_filt
        have hxe : x = e :=
          List.inj_on_of_nodup_map hnodup hx_led he (by rw [hx_id, hid])
        subst hxe
        simp only [Bool.and_eq_true, beq_iff_eq] at hx_pred
        rcases hdisq with hd | hd | hd
        · rw [hx_pred.2] at hd
          exact Bool.false_ne_true hd
        · exact hd hx_pred.1.2
        · exact hd (by simpa using hx_pred.1.1)
  · intro s agentId amount tgts now out h
    by_cases ha : amount < 1
    · simp [record_payment, ha] at h
    · simp only [record_payment, if_neg ha] at h
      rw [Except.ok.injEq] at h
      subst h
      ring

/-- C10 witness: a payment of 40 on `partialState` targeting only the
nonexistent entry id 9 applies nothing: the unpaid 200 entry (id 1, not
targeted) stays in the store unchanged, the full 40 surfaces in the
remainder, and an empty target list routes to the FIFO branch. -/
theorem claim10_payment_targeting_witness :
    mkUnpaidEntry 1 200 10 ∈ targetedOutcome.state.ledger ∧
    targetedOutcome.amountApplied + targetedOutcome.amountRemaining = 40 ∧
    record_payment partialState 7 40 (some []) 99 =
      record_payment partialState 7 40 none 99 :=
  ⟨claim10_payment_targeting.2.1 partialState 7 40 [9] 99 targetedOutcome
      (mkUnpaidEntry 1 200 10) (by decide) (by rfl) (by decide)
      (by decide) (Or.inr (Or.inr (by decide))),
   claim10_payment_targeting.2.2 partialState 7 40 [9] 99 targetedOutcome
      (by rfl),
   claim10_payment_targeting.1 partialState 7 40 99⟩

/-! ## Claim C3 — total_debt -/

/-- Unchanged and updated rows written back by `record_payment` both keep
the `is_paid`/threshold correspondence. -/
theorem flagInvariant_merge (ledger upd : List LedgerEntry)
    (hinv : flagInvariant ledger)
    (hupd : ∀ u ∈ upd, u.isPaid = decide (u.debtAmount ≤ u.paidAmount)) :
    flagInvariant (ledger.map (fun e =>
      ((upd.find? (fun u => u.id == e.id)).getD e))) := by
  intro x hx
  obtain ⟨e, he, rfl⟩ := List.mem_map.mp hx
  cases hf : upd.find? (fun u => u.id == e.id) with
  | none => simpa [hf] using hinv e he
  | some u => simpa [hf] using hupd u (List.mem_of_find?_eq_some hf)

/-- The entries selected by either branch of `record_payment` keep the
`is_paid`/threshold correspondence of the store they came from. -/
theorem flagInvariant_selected (ledger : List LedgerEntry)
    (p : LedgerEntry → Bool) (hinv : flagInvariant ledger) :
    ∀ x ∈ sortByTransferDate (ledger.filter p),
      x.isPaid = decide (x.debtAmount ≤ x.paidAmount) := by
  intro x hx
  have hx' : x ∈ ledger.filter p :=
    (List.perm_insertionSort _ _).mem_iff.mp hx
  exact hinv x (List.mem_of_mem_filter hx')

/-- `record_payment` preserves the `is_paid`/threshold correspondence of
the whole ledger. -/
theorem record_payment_flag (s : State) (agentId : Nat) (amount : Int)
    (targets : Option (List Nat)) (now : Int) (out : PaymentOutcome)
    (hinv : flagInvariant s.ledger)
    (h : record_payment s agentId amount targets now = .ok out) :
    flagInvariant out.state.ledger := by
  by_cases ha : amount < 1
  · simp [record_payment, ha] at h
  · simp only [record_payment, if_neg ha] at h
    rw [Except.ok.injEq] at h
    subst h
    refine flagInvariant_merge _ _ hinv (apply_entries_flag now amount _ ?_)
    split
    · exact flagInvariant_selected s.ledger _ hinv
    · exact flagInvariant_selected s.ledger _ hinv

/-- On a ledger satisfying the flag/threshold correspondence, summing
`debt_amount` over `is_paid = false` rows is the same as summing it over
rows with `paid_amount < debt_amount`. -/
theorem total_debt_filter_threshold (L : List LedgerEntry)
    (hinv : flagInvariant L) (a' : Nat) :
    total_debt L a' = sumDebt (L.filter (fun e =>
      e.agentId == a' && decide (e.paidAmount < e.debtAmount))) := by
  unfold total_debt
  refine congrArg sumDebt (List.filter_congr ?_)
  intro e he
  have h := hinv e he
  by_cases hle : e.debtAmount ≤ e.paidAmount
  · have h1 : e.isPaid = true := by rw [h]; exact decide_eq_true hle
    have h2 : ¬(e.paidAmount < e.debtAmount) := by omega
    simp [h1, h2]
  · have h1 : e.isPaid = false := by rw [h]; exact decide_eq_false hle
    have h2 : e.paidAmount < e.debtAmount := by omega
    simp [h1, h2]

/-- C3 counterexample: the claim says `total_debt` equals the sum of
`debt_amount - paid_amount` over entries with `paid_amount < debt_amount`;
after the code's own `record_payment` applies 150 to a 200 debt, the code
reports `total_debt = 200` (full face value) while the claimed sum is 50. -/
theorem claim3_total_debt_counterexample :
    record_payment partialState 7 150 none 99 = .ok partialOutcome ∧
    total_debt partialOutcome.state.ledger 7 = 200 ∧
    claimed_total_debt partialOutcome.state.ledger 7 = 50 ∧
    total_debt partialOutcome.state.ledger 7 ≠
      claimed_total_debt partialOutcome.state.ledger 7 :=
  ⟨by rfl, by decide, by decide, by decide⟩

/-- C3 amended: after any successful payment the ledger keeps the
`is_paid ↔ paid_amount ≥ debt_amount` correspondence, and `total_debt` is
the sum of the **full** `debt_amount` over exactly the entries with
`paid_amount < debt_amount` — partially paid entries contribute their full
face value, not the remaining portion. -/
theorem claim3_total_debt_rule (s : State) (agentId : Nat) (amount : Int)
    (targets : Option (List Nat)) (now : Int) (out : PaymentOutcome)
    (hinv : flagInvariant s.ledger)
    (h : record_payment s agentId amount targets now = .ok out) :
    flagInvariant out.state.ledger ∧
    ∀ a', total_debt out.state.ledger a' =
      sumDebt (out.state.ledger.filter (fun e =>
        e.agentId == a' && decide (e.paidAmount < e.debtAmount))) := by
  have hflag := record_payment_flag s agentId amount targets now out hinv h
  exact ⟨hflag, fun a' => total_debt_filter_threshold _ hflag a'⟩

/-- C3 witness: the amended rule applied to the partial payment of 150 on
a 200 debt. -/
theorem claim3_total_debt_rule_witness :
    flagInvariant partialOutcome.state.ledger ∧
    total_debt partialOutcome.state.ledger 7 =
      sumDebt (partialOutcome.state.ledger.filter (fun e =>
        e.agentId == 7 && decide (e.paidAmount < e.debtAmount))) :=
  ⟨(claim3_total_debt_rule partialState 7 150 none 99 partialOutcome
      (by unfold flagInvariant; decide) (by rfl)).1,
   (claim3_total_debt_rule partialState 7 150 none 99 partialOutcome
      (by unfold flagInvariant; decide) (by rfl)).2 7⟩

/-! ## Claim C9 — reconciliation state machine -/

/-- C9: each reconciliation operation is guarded by its status: recording a
count or completing is rejected (state returned unchanged, not accepted)
unless the reconciliation is `in_progress`, approving unless it is
`completed`, and creating corrections unless it is `approved`. -/
theorem claim9_reconciliation_guards :
    (∀ (s : State) (rid productId : Nat) (physicalCount : Int)
       (reason : String) (r : Reconciliation),
      s.recons.find? (fun q => q.id == rid) = some r →
      r.status ≠ .inProgress →
      add_count s rid productId physicalCount reason = (s, false)) ∧
    (∀ (s : State) (rid : Nat) (r : Reconciliation),
      s.recons.find? (fun q => q.id == rid) = some r →
      r.status ≠ .inProgress →
      complete_reconciliation s rid = (s, false)) ∧
    (∀ (s : State) (rid : Nat) (r : Reconciliation),
      s.recons.find? (fun q => q.id == rid) = some r →
      r.status ≠ .completed →
      approve_reconciliation s rid = (s, false)) ∧
    (∀ (s : State) (rid : Nat) (r : Reconciliation),
      s.recons.find? (fun q => q.id == rid) = some r →
      r.status ≠ .approved →
      create_corrections s rid = (s, false, 0)) := by
  refine ⟨?_, ?_, ?_, ?_⟩
  · intro s rid productId physicalCount reason r hfind hst
    unfold add_count
    rw [hfind]
    simp [hst]
  · intro s rid r hfind hst
    unfold complete_reconciliation
    rw [hfind]
    simp [hst]
  · intro s rid r hfind hst
    unfold approve_reconciliation
    rw [hfind]
    simp [hst]
  · intro s rid r hfind hst
    unfold create_corrections
    rw [hfind]
    simp [hst]

/-- C9 witness: on a `completed` reconciliation, `add_count` and `complete`
are rejected with the store unchanged; on an `approved` one, `approve` is
rejected; `create_corrections` is rejected on the `completed` one. -/
theorem claim9_reconciliation_guards_witness :
    add_count completedReconState 5 1 3 "" = (completedReconState, false) ∧
    complete_reconciliation completedReconState 5 = (completedReconState, false) ∧
    approve_reconciliation reconState 5 = (reconState, false) ∧
    create_corrections completedReconState 5 = (completedReconState, false, 0) :=
  ⟨claim9_reconciliation_guards.1 completedReconState 5 1 3 ""
      { id := 5, status := .completed } (by rfl) (by decide),
   claim9_reconciliation_guards.2.1 completedReconState 5
      { id := 5, status := .completed } (by rfl) (by decide),
   claim9_reconciliation_guards.2.2.1 reconState 5
      { id := 5, status := .approved } (by rfl) (by decide),
   claim9_reconciliation_guards.2.2.2 completedReconState 5
      { id := 5, status := .completed } (by rfl) (by decide)⟩

/-! ## Claim C5 — corrections are exactly-once -/

/-- One loop iteration's item update, followed by flagging a set of ids,
is flagging the extended set of ids. -/
theorem flag_step (itId : Nat) (ids : List Nat) (j : ReconItem) :
    flag_item ids (if j.id == itId
      then { j with correctionCreated := true, correctionApproved := true }
      else j) = flag_item (itId :: ids) j := by
  by_cases h : j.id = itId
  · by_cases h2 : j.id ∈ ids <;> simp [flag_item, h, h2]
  · by_cases h2 : j.id ∈ ids <;> simp [flag_item, h, h2]

/-- The corrections loop appends exactly one `ADJUSTMENT` movement with
`quantity_delta = variance` per processed item, in order. -/
theorem corrections_apply_movements :
    ∀ (l : List ReconItem) (s : State),
      (corrections_apply s l).movements =
        s.movements ++ correction_movements s.nextId l := by
  intro l
  induction l with
  | nil => intro s; simp [corrections_apply, correction_movements]
  | cons it rest ih =>
    intro s
    rw [corrections_apply, ih]
    simp [correction_movements, List.append_assoc]

/-- The corrections loop does not touch the reconciliations table. -/
theorem corrections_apply_recons :
    ∀ (l : List ReconItem) (s : State),
      (corrections_apply s l).recons = s.recons := by
  intro l
  induction l with
  | nil => intro s; rfl
  | cons it rest ih => intro s; rw [corrections_apply, ih]

/-- The corrections loop flips `correction_created` and
`correction_approved` on exactly the items whose id it processed. -/
theorem corrections_apply_items :
    ∀ (l : List ReconItem) (s : State),
      (corrections_apply s l).reconItems =
        s.reconItems.map (flag_item (l.map (·.id))) := by
  intro l
  induction l with
  | nil =>
    intro s
    have : ∀ j ∈ s.reconItems, flag_item [] j = j := by
      intro j _
      simp [flag_item]
    simp [corrections_apply, List.map_congr_left this]
  | cons it rest ih =>
    intro s
    rw [corrections_apply, ih]
    simp only [List.map_map, List.map_cons]
    refine List.map_congr_left (fun j _ => ?_)
    simp only [Function.comp_apply]
    exact flag_step it.id (rest.map (fun x => x.id)) j

/-- After one run of the corrections loop over the reconciliation's
discrepancies, no item of that reconciliation has an unprocessed
discrepancy left. -/
theorem discrepancy_items_after (s : State) (rid : Nat) :
    discrepancy_items (corrections_apply s (discrepancy_items s rid)) rid = [] := by
  unfold discrepancy_items
  rw [corrections_apply_items]
  rw [List.filter_eq_nil_iff]
  intro j' hj'
  obtain ⟨j, hj, rfl⟩ := List.mem_map.mp hj'
  by_cases hin : j.id ∈ (s.reconItems.filter (fun it =>
      it.reconId == rid && it.hasDiscrepancy && !it.correctionCreated)).map (·.id)
  · simp [flag_item, hin]
  · simp only [flag_item, if_neg hin]
    intro hpred
    exact hin (List.mem_map_of_mem _ (List.mem_filter.mpr ⟨hj, hpred⟩))

/-- C5: on an approved reconciliation, `create_corrections` accepts,
reports one correction per discrepancy item, appends exactly one movement
with `quantity_delta = variance` per item with `has_discrepancy = true`
and `correction_created = false`, flips both correction flags on those
items, and a second invocation accepts but creates zero new movements and
changes nothing (idempotent by flag). -/
theorem claim5_corrections_idempotent (s : State) (rid : Nat)
    (r : Reconciliation)
    (hfind : s.recons.find? (fun q => q.id == rid) = some r)
    (hst : r.status = .approved) :
    (create_corrections s rid).2.1 = true ∧
    (create_corrections s rid).2.2 = (discrepancy_items s rid).length ∧
    (create_corrections s rid).1.movements =
      s.movements ++ correction_movements s.nextId (discrepancy_items s rid) ∧
    (create_corrections s rid).1.reconItems =
      s.reconItems.map (flag_item ((discrepancy_items s rid).map (·.id))) ∧
    create_corrections (create_corrections s rid).1 rid =
      ((create_corrections s rid).1, true, 0) := by
  have hred : create_corrections s rid =
      (corrections_apply s (discrepancy_items s rid), true,
        (discrepancy_items s rid).length) := by
    unfold create_corrections
    rw [hfind]
    simp [hst]
  refine ⟨by rw [hred], by rw [hred], ?_, ?_, ?_⟩
  · rw [hred]
    exact corrections_apply_movements _ _
  · rw [hred]
    exact corrections_apply_items _ _
  · rw [hred]
    unfold create_corrections
    rw [show (corrections_apply s (discrepancy_items s rid)).recons.find?
          (fun q => q.id == rid) = some r from by
        rw [corrections_apply_recons]; exact hfind]
    simp [hst, discrepancy_items_after, corrections_apply]

/-- C5 witness: the exactly-once law applied to the approved
reconciliation fixture (one discrepancy of variance -3, one clean item). -/
theorem claim5_corrections_idempotent_witness :
    (create_corrections reconState 5).2.1 = true ∧
    (create_corrections reconState 5).2.2 =
      (discrepancy_items reconState 5).length ∧
    (create_corrections reconState 5).1.movements =
      reconState.movements ++
        correction_movements reconState.nextId (discrepancy_items reconState 5) ∧
    (create_corrections reconState 5).1.reconItems =
      reconState.reconItems.map
        (flag_item ((discrepancy_items reconState 5).map (·.id))) ∧
    create_corrections (create_corrections reconState 5).1 5 =
      ((create_corrections reconState 5).1, true, 0) :=
  claim5_corrections_idempotent reconState 5
    { id := 5, status := .approved } rfl rfl

/-! ## Claim C6 — atomicity of composite operations -/

/-- C6: `adjust_stock` is not all-or-nothing.  Its failure-free run is
exactly the two writes movement-insert then counter-update; but because
the action has no `transaction.atomic()` block, a database failure
injected between the two writes (autocommit semantics) leaves the
`ADJUSTMENT` movement committed while `quantity_in_stock` keeps its old
value 10 — the partially-written ledger state the claim rules out.  Under
the same failure injection, `transfer_stock`'s writes (which are wrapped
in `transaction.atomic()`) roll back completely. -/
theorem claim6_adjust_stock_partial_write :
    adjust_stock adjustState 1 5 =
      .ok (run_writes adjust_stock_atomic (adjust_stock_writes 1 5) none
            adjustState) ∧
    (run_writes adjust_stock_atomic (adjust_stock_writes 1 5) none
        adjustState).products.map (fun p => p.quantityInStock) = [15] ∧
    (run_writes adjust_stock_atomic (adjust_stock_writes 1 5) (some 1)
        adjustState).movements =
      [{ id := 1, productId := 1, movementType := .adjustment,
         quantityDelta := 5 }] ∧
    (run_writes adjust_stock_atomic (adjust_stock_writes 1 5) (some 1)
        adjustState).products.map (fun p => p.quantityInStock) = [10] ∧
    run_writes transfer_stock_atomic
        (transfer_stock_writes creditAgent creditProduct 1 20001 20001 50)
        (some 1) creditState = creditState :=
  ⟨by rfl, by decide, by decide, by decide, by rfl⟩

/-! ## Claim C4 — stock counter vs movement fold -/

/-- C4 counterexample: creating a product with an initial
`quantity_in_stock` of 10 records no `InventoryMovement`, so the fold of
the product's movements (0) does not reproduce the counter (10). -/
theorem claim4_stock_fold_counterexample :
    (create_product emptyState 10 5 true).products.map
      (fun p => p.quantityInStock) = [10] ∧
    movementSum (create_product emptyState 10 5 true).movements 1 = 0 ∧
    ¬ stockInv (create_product emptyState 10 5 true) :=
  ⟨by decide, by decide, by unfold stockInv; decide⟩

/-- `transfer_stock` preserves `counter = Σ deltas` for every product. -/
theorem stockInv_transfer (s : State) (agentId productId : Nat)
    (quantity unitPrice now : Int) (s' : State) (hinv : stockInv s)
    (h : transfer_stock s agentId productId quantity unitPrice now = .ok s') :
    stockInv s' := by
  unfold transfer_stock at h
  cases hv : validate_transfer s agentId productId quantity unitPrice with
  | error err => rw [hv] at h; exact Except.noConfusion h
  | ok res =>
    obtain ⟨agent, product, debtAmount⟩ := res
    rw [hv] at h
    rw [Except.ok.injEq] at h
    subst h
    intro p hp
    simp only [transfer_write_counters, transfer_write_ledger,
      transfer_write_movement] at hp ⊢
    obtain ⟨p0, hp0, rfl⟩ := List.mem_map.mp hp
    have hbase := hinv p0 hp0
    by_cases hid : p0.id = product.id
    · rw [if_pos (by simp [hid])]
      simp only [movementSum_append]
      rw [if_pos (by simp [hid])]
      omega
    · rw [if_neg (by simp [hid])]
      simp only [movementSum_append]
      rw [if_neg (by simp; omega)]
      omega

/-- `adjust_stock` preserves `counter = Σ deltas` for every product. -/
theorem stockInv_adjust (s : State) (productId : Nat) (delta : Int)
    (s' : State) (hinv : stockInv s)
    (h : adjust_stock s productId delta = .ok s') : stockInv s' := by
  unfold adjust_stock at h
  split at h
  · exact Except.noConfusion h
  next product hfind =>
    split at h
    · exact Except.noConfusion h
    · rw [Except.ok.injEq] at h
      subst h
      intro p hp
      simp only [adjust_write_counter, adjust_write_movement] at hp ⊢
      obtain ⟨p0, hp0, rfl⟩ := List.mem_map.mp hp
      have hbase := hinv p0 hp0
      by_cases hid : p0.id = product.id
      · rw [if_pos (by simp [hid])]
        simp only [movementSum_append]
        rw [if_pos (by simp [hid])]
        omega
      · rw [if_neg (by simp [hid])]
        simp only [movementSum_append]
        rw [if_neg (by simp; omega)]
        omega

/-- The corrections loop preserves `counter = Σ deltas`. -/
theorem stockInv_corrections_apply :
    ∀ (l : List ReconItem) (s : State), stockInv s →
      stockInv (corrections_apply s l) := by
  intro l
  induction l with
  | nil => intro s h; exact h
  | cons it rest ih =>
    intro s h
    rw [corrections_apply]
    apply ih
    intro p hp
    simp only [correction_movement] at hp ⊢
    obtain ⟨p0, hp0, rfl⟩ := List.mem_map.mp hp
    have hbase := h p0 hp0
    by_cases hid : p0.id = it.productId
    · rw [if_pos (by simp [hid])]
      simp only [movementSum_append]
      rw [if_pos (by simp [hid])]
      omega
    · rw [if_neg (by simp [hid])]
      simp only [movementSum_append]
      rw [if_neg (by simp; omega)]
      omega

/-- The per-item product snapshots produced by `CreateSaleSerializer`
validation come from the store, and each snapshot's id is its item's
product id; the validated list carries the original items. -/
theorem validate_sale_items_sound :
    ∀ (items : List SaleItemInput) (s : State)
      (v : List (Product × SaleItemInput)),
      validate_sale_items s items = .ok v →
      v.map (fun pr => pr.2) = items ∧
      ∀ pr ∈ v, pr.1 ∈ s.products ∧ pr.1.id = pr.2.productId := by
  intro items
  induction items with
  | nil =>
    intro s v h
    rw [validate_sale_items, Except.ok.injEq] at h
    subst h
    simp
  | cons it rest ih =>
    intro s v h
    unfold validate_sale_items at h
    split at h
    · exact Except.noConfusion h
    split at h
    · exact Except.noConfusion h
    split at h
    · exact Except.noConfusion h
    split at h
    · exact Except.noConfusion h
    next product hfind =>
      split at h
      · exact Except.noConfusion h
      split at h
      · exact Except.noConfusion h
      next tail htail =>
        rw [Except.ok.injEq] at h
        subst h
        obtain ⟨htl1, htl2⟩ := ih s tail htail
        constructor
        · simp [htl1]
        · intro pr hpr
          rcases List.mem_cons.mp hpr with hpr | hpr
          · subst hpr
            refine ⟨List.mem_of_find?_eq_some hfind, ?_⟩
            have hps := List.find?_some hfind
            simp only [Bool.and_eq_true, beq_iff_eq] at hps
            exact hps.1
          · exact htl2 pr hpr

/-- The per-item sale writes preserve `counter = Σ deltas`, provided the
snapshots are accurate for the current store and no product appears twice
among the items. -/
theorem stockInv_sale_apply :
    ∀ (l : List (Product × SaleItemInput)) (txnId : Nat) (s : State),
      stockInv s →
      (∀ pr ∈ l, ∀ p ∈ s.products, p.id = pr.1.id →
        p.quantityInStock = pr.1.quantityInStock) →
      (l.map (fun pr => pr.1.id)).Nodup →
      stockInv (sale_apply txnId s l) := by
  intro l
  induction l with
  | nil => intro txnId s h _ _; exact h
  | cons pr rest ih =>
    obtain ⟨snap, it⟩ := pr
    intro txnId s h hacc hnd
    rw [sale_apply]
    apply ih
    · intro p hp
      obtain ⟨p0, hp0, rfl⟩ := List.mem_map.mp hp
      have hbase := h p0 hp0
      by_cases hid : p0.id = snap.id
      · rw [if_pos (by simp [hid])]
        simp only [movementSum_append]
        rw [if_pos (by simp [hid])]
        have hsnap : p0.quantityInStock = snap.quantityInStock :=
          hacc (snap, it) (List.mem_cons_self _ _) p0 hp0 hid
        omega
      · rw [if_neg (by simp [hid])]
        simp only [movementSum_append]
        rw [if_neg (by simp; omega)]
        omega
    · intro pr' hpr' p hp hpid
      obtain ⟨p0, hp0, rfl⟩ := List.mem_map.mp hp
      have hne : pr'.1.id ≠ snap.id := by
        simp only [List.map_cons, List.nodup_cons] at hnd
        intro hcontra
        exact hnd.1 (hcontra ▸ List.mem_map_of_mem _ hpr')
      by_cases hid0 : p0.id = snap.id
      · exfalso
        rw [if_pos (by simp [hid0])] at hpid
        have hpe : p0.id = pr'.1.id := by simpa using hpid
        exact hne (hpe.symm.trans hid0)
      · rw [if_neg (by simp [hid0])] at hpid ⊢
        exact hacc pr' (List.mem_cons_of_mem _ hpr') p0 hp0 hpid
    · simp only [List.map_cons, List.nodup_cons] at hnd
      exact hnd.2

/-- `create_sale` preserves `counter = Σ deltas` for every product when no
product appears twice among the sale's items (each item carries its own
pre-loop snapshot of the product row, so duplicated items would write a
stale counter). -/
theorem stockInv_create_sale (s : State) (items : List SaleItemInput)
    (amountPaid : Int) (s' : State) (hinv : stockInv s)
    (hpn : (s.products.map (fun p => p.id)).Nodup)
    (hin : (items.map (fun it => it.productId)).Nodup)
    (h : create_sale s items amountPaid = .ok s') : stockInv s' := by
  unfold create_sale at h
  split at h
  · exact Except.noConfusion h
  split at h
  · exact Except.noConfusion h
  split at h
  · exact Except.noConfusion h
  next validated hval =>
    dsimp only at h
    split at h
    · exact Except.noConfusion h
    rw [Except.ok.injEq] at h
    subst h
    obtain ⟨hmap, hsound⟩ := validate_sale_items_sound items s validated hval
    apply stockInv_sale_apply
    · exact fun p hp => hinv p hp
    · intro pr hpr p hp hpid
      have hmem := (hsound pr hpr).1
      have heq : p = pr.1 :=
        List.inj_on_of_nodup_map hpn hp hmem (by rw [hpid])
      rw [heq]
    · have hids : validated.map (fun pr => pr.1.id) =
          items.map (fun i => i.productId) := by
        rw [← hmap, List.map_map]
        exact List.map_congr_left (fun pr hpr => (hsound pr hpr).2)
      rw [hids]
      exact hin

/-- C4 amended: the four ledger operations — stock transfer, manual
adjustment, sale (with pairwise-distinct products per sale), and
reconciliation corrections — preserve the invariant `quantity_in_stock =
Σ quantity_delta` for every product; product creation (the
counterexample) and direct quantity updates write the counter with no
movement, so the invariant holds only for products whose counter has
never been directly written. -/
theorem claim4_stock_fold_rule :
    (∀ (s : State) (agentId productId : Nat) (quantity unitPrice now : Int)
       (s' : State), stockInv s →
       transfer_stock s agentId productId quantity unitPrice now = .ok s' →
       stockInv s') ∧
    (∀ (s : State) (productId : Nat) (delta : Int) (s' : State),
       stockInv s → adjust_stock s productId delta = .ok s' → stockInv s') ∧
    (∀ (s : State) (items : List SaleItemInput) (amountPaid : Int)
       (s' : State), stockInv s →
       (s.products.map (fun p => p.id)).Nodup →
       (items.map (fun i => i.productId)).Nodup →
       create_sale s items amountPaid = .ok s' → stockInv s') ∧
    (∀ (s : State) (rid : Nat), stockInv s →
       stockInv (create_corrections s rid).1) :=
  ⟨fun s a p q u n s' hi h => stockInv_transfer s a p q u n s' hi h,
   fun s p d s' hi h => stockInv_adjust s p d s' hi h,
   fun s it ap s' hi h1 h2 h => stockInv_create_sale s it ap s' hi h1 h2 h,
   fun s rid hi => by
     unfold create_corrections
     split
     · exact hi
     · split
       · exact hi
       · exact stockInv_corrections_apply _ _ hi⟩

/-- C4 witness: the preservation law applied to a +5 adjustment on a
zero-stock product. -/
theorem claim4_stock_fold_rule_witness : stockInv adjustedZeroState :=
  claim4_stock_fold_rule.2.1 zeroStockState 1 5 adjustedZeroState
    (by unfold stockInv; decide) (by rfl)

end EROM
